import Mathlib

/-!
A shallow embedding of the pantry subsystem of the CribbBackend Go server
(`handlers/pantry.go`, the category handlers file, `models/pantry_category.go`),
together with theorems checking the natural-language specification against it.

Modelling conventions:
* Mongo ObjectIDs are modelled as `Nat` (`OID`).
* `float64` quantities are modelled as `ℚ`: the claims under scrutiny are about
  comparisons, ordering and exact replacement, not floating-point rounding.
* Go `time.Time` values are modelled as `Int` with `0` standing for Go's zero
  time (`time.Time.IsZero`), matching the handlers' `IsZero` sentinel checks.
* Each Mongo collection is a `List` in insertion order; `FindOne` without a
  sort is `List.find?`, `UpdateOne` updates the first match, `DeleteMany`
  filters, `InsertOne` appends, `CountDocuments` is `countP`, and a sorted
  `Find` is an insertion sort by the requested keys.
* Each distinct `http.Error` return path of a handler is a distinct error
  constructor.
-/

set_option allowUnsafeReducibility true

attribute [semireducible] Rat.sub Rat.add Rat.mul Rat.normalize Rat.blt Rat.div Rat.inv Rat.neg

namespace Cribb

abbrev OID := Nat

abbrev Qty := ℚ

/-! ### A model of the Mongo `$regex` operator, for the fragment the repository
exercises.

`AddPantryItemHandler` matches item names with
`primitive.Regex{Pattern: "^" + strings.TrimSpace(request.Name) + "$", Options: "i"}`
(the name is *not* escaped with `regexp.QuoteMeta`, unlike the category
handlers).  We model the anchored pattern as a full-string match of the inner
pattern.  The parser below supports the PCRE fragment of single-character
atoms: literal characters, `.`, escapes `\c`, and the postfix operators
`*`, `+`, `?`.  Patterns using constructs outside this fragment are mapped to
`none` and treated as non-matching; every theorem below only evaluates the
matcher on patterns inside the fragment. -/

inductive RE where
  | fail : RE
  | eps : RE
  | ch : Char → RE
  | any : RE
  | seq : RE → RE → RE
  | alt : RE → RE → RE
  | star : RE → RE
  deriving DecidableEq, Repr

def RE.nullable : RE → Bool
  | .fail => false
  | .eps => true
  | .ch _ => false
  | .any => false
  | .seq a b => a.nullable && b.nullable
  | .alt a b => a.nullable || b.nullable
  | .star _ => true

def RE.deriv : RE → Char → RE
  | .fail, _ => .fail
  | .eps, _ => .fail
  | .ch a, c => if a = c then .eps else .fail
  | .any, _ => .eps
  | .seq a b, c =>
      if a.nullable then .alt (.seq (a.deriv c) b) (b.deriv c)
      else .seq (a.deriv c) b
  | .alt a b, c => .alt (a.deriv c) (b.deriv c)
  | .star a, c => .seq (a.deriv c) (.star a)

/-- Brzozowski-derivative full-string matching. -/
def reMatch (r : RE) (s : List Char) : Bool :=
  (s.foldl RE.deriv r).nullable

/-- Metacharacters of constructs the parser does not support: such a pattern
parses to `none`. -/
def unsupportedMeta (c : Char) : Bool :=
  c = '|' || c = '(' || c = ')' || c = '[' || c = ']' ||
  c = Char.ofNat 123 || c = Char.ofNat 125 || c = '^' || c = '$'

/-- Parse a pattern into a reversed list of regex atoms; postfix operators
apply to the previous atom, as in PCRE for single-character atoms. -/
def parseAtoms : List Char → List RE → Option (List RE)
  | [], acc => some acc
  | '\\' :: c :: rest, acc => parseAtoms rest (RE.ch c :: acc)
  | ['\\'], _ => none
  | '.' :: rest, acc => parseAtoms rest (RE.any :: acc)
  | '*' :: rest, r :: acc => parseAtoms rest (RE.star r :: acc)
  | ['*'], [] => none
  | '*' :: _ :: _, [] => none
  | '+' :: rest, r :: acc => parseAtoms rest (RE.seq r (RE.star r) :: acc)
  | ['+'], [] => none
  | '+' :: _ :: _, [] => none
  | '?' :: rest, r :: acc => parseAtoms rest (RE.alt r RE.eps :: acc)
  | ['?'], [] => none
  | '?' :: _ :: _, [] => none
  | c :: rest, acc =>
      if unsupportedMeta c then none else parseAtoms rest (RE.ch c :: acc)

/-- Sequence a reversed atom list into one regex. -/
def seqAll (rev : List RE) : RE :=
  rev.foldl (fun k r => RE.seq r k) RE.eps

def parsePattern (s : List Char) : Option RE :=
  (parseAtoms s []).map seqAll

/-- `strings.TrimSpace` on explicit character lists. -/
def trimChars (s : List Char) : List Char :=
  ((s.dropWhile Char.isWhitespace).reverse.dropWhile Char.isWhitespace).reverse

/-- Lower-casing on explicit character lists (the `i` regex option and
case-insensitive comparison are modelled by case folding). -/
def lowerChars (s : List Char) : List Char :=
  s.map Char.toLower

/-- The existing-item lookup predicate of `AddPantryItemHandler`: the trimmed
request name, taken as a case-insensitive regular expression anchored with
`^` and `$`, matched against the stored item name.  Case-insensitivity is
modelled by lower-casing both the pattern's literals and the subject. -/
def nameLookupMatches (reqName itemName : String) : Bool :=
  match parsePattern (lowerChars (trimChars reqName.data)) with
  | some r => reMatch r (lowerChars itemName.data)
  | none => false

/-- The match predicate the specification describes: case-insensitive
comparison of trimmed names. -/
def nameEqCI (a b : String) : Bool :=
  lowerChars (trimChars a.data) == lowerChars (trimChars b.data)

/-! ### Data model -/

inductive CategoryType where
  | predefined : CategoryType
  | custom : CategoryType
  deriving DecidableEq, Repr

structure PantryCategory where
  id : OID
  name : String
  ctype : CategoryType
  groupId : Option OID
  createdBy : Option OID
  isActive : Bool
  deriving DecidableEq, Repr

structure Group where
  id : OID
  name : String
  deriving DecidableEq, Repr

structure User where
  id : OID
  name : String
  groupId : OID
  deriving DecidableEq, Repr

structure PantryItem where
  id : OID
  groupId : OID
  name : String
  quantity : Qty
  unit : String
  categoryId : OID
  /-- `0` encodes Go's zero `time.Time` (no expiration). -/
  expirationDate : Int
  addedBy : OID
  createdAt : Int
  updatedAt : Int
  deriving DecidableEq, Repr

inductive NotificationType where
  | low_stock : NotificationType
  | out_of_stock : NotificationType
  | expiring_soon : NotificationType
  deriving DecidableEq, Repr

structure PantryNotification where
  groupId : OID
  itemId : OID
  itemName : String
  ntype : NotificationType
  message : String
  isRead : Bool
  createdAt : Int
  deriving DecidableEq, Repr

inductive HistoryAction where
  | add : HistoryAction
  | use : HistoryAction
  | remove : HistoryAction
  deriving DecidableEq, Repr

structure PantryHistory where
  groupId : OID
  itemId : OID
  itemName : String
  action : HistoryAction
  /-- Quantity delta of the action. -/
  quantity : Qty
  userId : OID
  userName : String
  deriving DecidableEq, Repr

/-- The store: one list per Mongo collection, in insertion order. -/
structure DBState where
  groups : List Group
  users : List User
  categories : List PantryCategory
  items : List PantryItem
  notifications : List PantryNotification
  history : List PantryHistory
  deriving DecidableEq, Repr

/-! ### Store primitives -/

def findById (items : List PantryItem) (i : OID) : Option PantryItem :=
  items.find? (fun it => it.id == i)

/-- `UpdateOne` semantics: rewrite the first element satisfying `p`. -/
def updateFirstBy (p : α → Bool) (f : α → α) : List α → List α
  | [] => []
  | x :: xs => if p x then f x :: xs else x :: updateFirstBy p f xs

/-- `DeleteOne` semantics: remove the first element satisfying `p`. -/
def removeFirstBy (p : α → Bool) : List α → List α
  | [] => []
  | x :: xs => if p x then xs else x :: removeFirstBy p xs

/-- `models.CreatePantryNotification`: a fresh unread notification.
Modelled from the spec: the constructor itself is not under `src/`; per the
data model a notification has group, item reference, denormalized item name,
type, message, read flag (fresh ones unread) and creation time. -/
def mkNotification (groupId itemId : OID) (itemName : String)
    (ntype : NotificationType) (message : String) (now : Int) : PantryNotification :=
  { groupId := groupId, itemId := itemId, itemName := itemName,
    ntype := ntype, message := message, isRead := false, createdAt := now }

/-- `models.PantryItem.IsExpiringSoon(days)`.
Modelled from the spec: the method is not under `src/`; the spec's
`isExpiringSoon` is "within `days` days" of a non-zero expiration timestamp
that is not already past. -/
def isExpiringSoon (now exp days : Int) : Bool :=
  exp != 0 && now ≤ exp && exp ≤ now + days

/-- `models.CreatePantryItem`.
Modelled from the spec: the constructor is not under `src/`; it populates the
item's fields from its arguments with fresh timestamps. -/
def CreatePantryItem (freshId groupId : OID) (name : String) (quantity : Qty)
    (unit : String) (categoryId : OID) (expirationDate : Int)
    (addedBy : OID) (now : Int) : PantryItem :=
  { id := freshId, groupId := groupId, name := name, quantity := quantity,
    unit := unit, categoryId := categoryId, expirationDate := expirationDate,
    addedBy := addedBy, createdAt := now, updatedAt := now }

/-- `UpdatePantryHistoryForAdd`.
Modelled from the spec: the History Ledger writer is not under `src/`; `record`
appends an entry with the given action and quantity delta, never touching
existing entries.  The add/update paths pass the delta directly. -/
def historyForAdd (groupId itemId : OID) (itemName : String) (userId : OID)
    (userName : String) (delta : Qty) (h : List PantryHistory) : List PantryHistory :=
  h ++ [{ groupId := groupId, itemId := itemId, itemName := itemName,
          action := .add, quantity := delta, userId := userId, userName := userName }]

/-- `UpdatePantryHistoryForUse`.
Modelled from the spec: the History Ledger writer is not under `src/`; a `use`
entry is "sized as the negative of the consumed amount". -/
def historyForUse (groupId itemId : OID) (itemName : String) (userId : OID)
    (userName : String) (consumed : Qty) (h : List PantryHistory) : List PantryHistory :=
  h ++ [{ groupId := groupId, itemId := itemId, itemName := itemName,
          action := .use, quantity := -consumed, userId := userId, userName := userName }]

/-! ### `UsePantryItemHandler` (`handlers/pantry.go`) -/

structure UsePantryItemRequest where
  itemId : OID
  quantity : Qty
  deriving DecidableEq, Repr

structure UseResponse where
  success : Bool
  message : String
  remainingQty : Qty
  unit : String
  deriving DecidableEq, Repr

inductive UseError where
  | invalidRequest : UseError
  | userNotFound : UseError
  | itemNotFound : UseError
  | notInGroup : UseError
  | insufficientQuantity : UseError
  deriving DecidableEq, Repr

/-- `PantryItem.UpdateQuantity` followed by the `$set` of `quantity` and
`updated_at`: the stored row keeps all other fields. -/
def useItemTransform (newQuantity : Qty) (now : Int) (it : PantryItem) : PantryItem :=
  { it with quantity := newQuantity, updatedAt := now }

def lowStockMessage : String := "Item is running low"

def outOfStockMessage : String := "Item is out of stock"

/-- `UsePantryItemHandler`: validation, user lookup, then the transaction
(find item, ownership check, stock check, decrement, notification
transitions) and the post-commit `use` history write.  An error anywhere
rolls back, leaving the store unchanged. -/
def usePantryItem (st : DBState) (userId : OID) (req : UsePantryItemRequest)
    (now : Int) : DBState × Except UseError UseResponse :=
  if req.quantity ≤ 0 then (st, .error .invalidRequest)
  else
    match st.users.find? (fun u => u.id == userId) with
    | none => (st, .error .userNotFound)
    | some user =>
      match findById st.items req.itemId with
      | none => (st, .error .itemNotFound)
      | some item =>
        if item.groupId != user.groupId then (st, .error .notInGroup)
        else if item.quantity < req.quantity then (st, .error .insufficientQuantity)
        else
          let newQuantity := item.quantity - req.quantity
          let items1 := updateFirstBy (fun it => it.id == req.itemId)
            (useItemTransform newQuantity now) st.items
          let notifs1 :=
            if 0 < newQuantity ∧ newQuantity ≤ 1 then
              st.notifications ++
                [mkNotification item.groupId item.id item.name .low_stock lowStockMessage now]
            else st.notifications
          let notifs2 :=
            if newQuantity = 0 then
              (notifs1.filter (fun n =>
                !(n.itemId == item.id && n.ntype == NotificationType.low_stock))) ++
                [mkNotification item.groupId item.id item.name .out_of_stock outOfStockMessage now]
            else notifs1
          let st1 := { st with items := items1, notifications := notifs2 }
          let st2 :=
            match findById st1.items req.itemId with
            | some after =>
              { st1 with history :=
                  (historyForUse user.groupId req.itemId after.name userId user.name
                    req.quantity st1.history) }
            | none => st1
          (st2, .ok { success := true, message := "Item used successfully",
                      remainingQty := newQuantity, unit := item.unit })

/-- A sequence of `use` calls, each observing the previous call's state. -/
def useMany (st : DBState) (calls : List (OID × UsePantryItemRequest × Int)) : DBState :=
  calls.foldl (fun s c => (usePantryItem s c.1 c.2.1 c.2.2).1) st

/-- The quantity of the item with id `i`, when present. -/
def quantityOf (st : DBState) (i : OID) : Option Qty :=
  (findById st.items i).map (fun it => it.quantity)

/-- The stored expiration date of the item with id `i`, when present. -/
def expirationOf (st : DBState) (i : OID) : Option Int :=
  (findById st.items i).map (fun it => it.expirationDate)

/-- Count of active (stored) notifications of a type for an item. -/
def notifCount (st : DBState) (i : OID) (t : NotificationType) : Nat :=
  st.notifications.countP (fun n => n.itemId == i && n.ntype == t)

/-! ### `validateCategoryID` and `AddPantryItemHandler` (`handlers/pantry.go`) -/

/-- `validateCategoryID`: an active category that is predefined or custom and
owned by the group. -/
def validateCategoryID (st : DBState) (categoryId groupId : OID) : Option PantryCategory :=
  st.categories.find? (fun c =>
    c.id == categoryId && c.isActive &&
      (c.ctype == CategoryType.predefined ||
        (c.ctype == CategoryType.custom && c.groupId == some groupId)))

structure AddPantryItemRequest where
  name : String
  quantity : Qty
  unit : String
  categoryId : OID
  /-- Parsed RFC3339 expiration; `0` when the field is absent or empty. -/
  expirationDate : Int
  groupName : String
  deriving DecidableEq, Repr

inductive AddError where
  | invalidRequest : AddError
  | groupNotFound : AddError
  | userNotFound : AddError
  | notInGroup : AddError
  | invalidCategory : AddError
  deriving DecidableEq, Repr

def expiringSoonMessage : String := "Item will expire in 3 days or less"

/-- The existing-item lookup filter of `AddPantryItemHandler`'s transaction:
same group, anchored case-insensitive regex on the trimmed request name, and
same category id. -/
def addLookup (groupId : OID) (req : AddPantryItemRequest) (it : PantryItem) : Bool :=
  it.groupId == groupId && nameLookupMatches req.name it.name &&
    it.categoryId == req.categoryId

/-- `AddPantryItemHandler`: validation, group/user/membership/category
resolution, then the upsert transaction with its expiring-soon notification,
and the post-commit history write (`add` sized as the full quantity for a new
row, `newQuantity - oldQuantity` for an updated row, nothing when the
quantity is unchanged). -/
def addPantryItem (st : DBState) (userId : OID) (req : AddPantryItemRequest)
    (now : Int) (freshId : OID) : DBState × Except AddError PantryItem :=
  if req.name == "" || req.quantity < 0 || req.unit == "" || req.groupName == "" then
    (st, .error .invalidRequest)
  else
    match st.groups.find? (fun g => g.name == req.groupName) with
    | none => (st, .error .groupNotFound)
    | some group =>
      match st.users.find? (fun u => u.id == userId) with
      | none => (st, .error .userNotFound)
      | some user =>
        if user.groupId != group.id then (st, .error .notInGroup)
        else
          match validateCategoryID st req.categoryId group.id with
          | none => (st, .error .invalidCategory)
          | some _ =>
            match st.items.find? (addLookup group.id req) with
            | some item =>
              let updated : PantryItem :=
                { item with
                  quantity := req.quantity,
                  unit := req.unit,
                  expirationDate :=
                    if req.expirationDate ≠ 0 then req.expirationDate
                    else item.expirationDate,
                  updatedAt := now }
              let items1 := updateFirstBy (addLookup group.id req)
                (fun _ => updated) st.items
              let notifs1 :=
                if req.expirationDate ≠ 0 ∧
                    isExpiringSoon now updated.expirationDate 3 = true then
                  st.notifications ++
                    [mkNotification group.id updated.id updated.name .expiring_soon
                      expiringSoonMessage now]
                else st.notifications
              let hist1 :=
                if item.quantity ≠ req.quantity then
                  historyForAdd group.id item.id updated.name userId user.name
                    (req.quantity - item.quantity) st.history
                else st.history
              ({ st with items := items1, notifications := notifs1, history := hist1 },
                .ok updated)
            | none =>
              let newItem := CreatePantryItem freshId group.id req.name req.quantity
                req.unit req.categoryId req.expirationDate userId now
              let notifs1 :=
                if req.expirationDate ≠ 0 ∧
                    isExpiringSoon now newItem.expirationDate 3 = true then
                  st.notifications ++
                    [mkNotification group.id newItem.id newItem.name .expiring_soon
                      expiringSoonMessage now]
                else st.notifications
              let hist1 := historyForAdd group.id newItem.id newItem.name userId
                user.name req.quantity st.history
              let st1 := { st with
                items := st.items ++ [newItem]
                notifications := notifs1
                history := hist1 }
              (st1, .ok newItem)

/-! ### `UpdatePantryItemHandler` (`handlers/pantry.go`) -/

inductive UpdError where
  | invalidRequest : UpdError
  | groupNotFound : UpdError
  | userNotFound : UpdError
  | notInGroup : UpdError
  | invalidCategory : UpdError
  | itemNotFound : UpdError
  | itemNotInGroup : UpdError
  deriving DecidableEq, Repr

/-- `UpdatePantryItemHandler`: loads the item by id, checks ownership,
replaces all mutable fields (keeping the stored expiration when the request
carries none), inserts an expiring-soon notification under the same guard as
`add`, and records a history adjustment when the quantity changed. -/
def updatePantryItem (st : DBState) (userId itemId : OID)
    (req : AddPantryItemRequest) (now : Int) : DBState × Except UpdError PantryItem :=
  if req.name == "" || req.quantity < 0 || req.unit == "" || req.groupName == "" then
    (st, .error .invalidRequest)
  else
    match st.groups.find? (fun g => g.name == req.groupName) with
    | none => (st, .error .groupNotFound)
    | some group =>
      match st.users.find? (fun u => u.id == userId) with
      | none => (st, .error .userNotFound)
      | some user =>
        if user.groupId != group.id then (st, .error .notInGroup)
        else
          match validateCategoryID st req.categoryId group.id with
          | none => (st, .error .invalidCategory)
          | some _ =>
            match findById st.items itemId with
            | none => (st, .error .itemNotFound)
            | some item =>
              if item.groupId != user.groupId then (st, .error .itemNotInGroup)
              else
                let updated : PantryItem :=
                  { item with
                    name := req.name,
                    quantity := req.quantity,
                    unit := req.unit,
                    categoryId := req.categoryId,
                    expirationDate :=
                      if req.expirationDate ≠ 0 then req.expirationDate
                      else item.expirationDate,
                    updatedAt := now }
                let items1 := updateFirstBy (fun it => it.id == itemId)
                  (fun _ => updated) st.items
                let notifs1 :=
                  if req.expirationDate ≠ 0 ∧
                      isExpiringSoon now updated.expirationDate 3 = true then
                    st.notifications ++
                      [mkNotification group.id updated.id updated.name .expiring_soon
                        expiringSoonMessage now]
                  else st.notifications
                let hist1 :=
                  if item.quantity ≠ req.quantity then
                    historyForAdd group.id updated.id updated.name userId user.name
                      (req.quantity - item.quantity) st.history
                  else st.history
                ({ st with items := items1, notifications := notifs1, history := hist1 },
                  .ok updated)

/-! ### `DeletePantryCategoryHandler` (live category handlers file; it counts
referencing items by `category_id`) and `PantryCategory.CanBeDeletedBy`
(`models/pantry_category.go`) -/

inductive DelCatError where
  | userNotFound : DelCatError
  | categoryNotFound : DelCatError
  | forbiddenPredefined : DelCatError
  | forbiddenOtherGroup : DelCatError
  | conflictInUse : DelCatError
  | alreadyDeleted : DelCatError
  deriving DecidableEq, Repr

/-- `PantryCategory.CanBeDeletedBy`: predefined categories never; custom ones
only by members of the owning group. -/
def canBeDeletedBy (c : PantryCategory) (_userId userGroupId : OID) : Bool :=
  match c.ctype with
  | .predefined => false
  | .custom => c.groupId == some userGroupId

/-- `DeletePantryCategoryHandler`: user lookup, category lookup, permission
check, then a conflict check counting pantry items that reference the
category **by id**, and finally `DeleteOne` on the category. -/
def deletePantryCategory (st : DBState) (userId categoryId : OID) :
    DBState × Except DelCatError Unit :=
  match st.users.find? (fun u => u.id == userId) with
  | none => (st, .error .userNotFound)
  | some user =>
    match st.categories.find? (fun c => c.id == categoryId) with
    | none => (st, .error .categoryNotFound)
    | some category =>
      if ¬ canBeDeletedBy category userId user.groupId then
        (st, .error (if category.ctype == CategoryType.predefined then
          DelCatError.forbiddenPredefined else DelCatError.forbiddenOtherGroup))
      else
        let itemCount := st.items.countP (fun it => it.categoryId == categoryId)
        if itemCount > 0 then (st, .error .conflictInUse)
        else
          if st.categories.any (fun c => c.id == categoryId) then
            ({ st with
                categories := removeFirstBy (fun c => c.id == categoryId) st.categories },
              .ok ())
          else (st, .error .alreadyDeleted)

/-! ### `GetPantryItemsHandler` (`handlers/pantry.go`): filter by group and
optional category, sorted by `(category_id, name)` ascending -/

/-- The Mongo sort key order of the listing: `category_id` ascending, then
`name` ascending. -/
def itemLe (a b : PantryItem) : Prop :=
  a.categoryId < b.categoryId ∨ (a.categoryId = b.categoryId ∧ a.name ≤ b.name)

instance : DecidableRel itemLe := fun a b => by
  unfold itemLe; infer_instance

def listItemFilter (groupId : OID) (categoryFilter : Option OID)
    (it : PantryItem) : Bool :=
  it.groupId == groupId &&
    (match categoryFilter with
     | none => true
     | some c => it.categoryId == c)

/-- `GetPantryItemsHandler`'s query: the group's items (optionally restricted
to one category), sorted by `(category_id, name)`. -/
def getPantryItems (st : DBState) (groupId : OID) (categoryFilter : Option OID) :
    List PantryItem :=
  List.insertionSort itemLe (st.items.filter (listItemFilter groupId categoryFilter))

/-! ### Helper lemmas about the store primitives -/

theorem findById_updateFirstBy (l : List PantryItem) (j i : OID)
    (f : PantryItem → PantryItem) (hf : ∀ x, x.id = j → (f x).id = x.id) :
    findById (updateFirstBy (fun it => it.id == j) f l) i =
      if i = j then (findById l i).map f else findById l i := by
  induction l with
  | nil => simp [findById, updateFirstBy]
  | cons x xs ih =>
    by_cases hx : x.id = j
    · have hxj : (x.id == j) = true := by simp [hx]
      simp only [updateFirstBy, hxj, if_true]
      by_cases hi : i = j
      · subst hi
        simp [findById, List.find?_cons, hf x hx, hx]
      · have hxi : (x.id == i) = false := by simp [hx]; exact fun h => hi h.symm
        have hfxi : ((f x).id == i) = false := by
          simp [hf x hx, hx]; exact fun h => hi h.symm
        simp [findById, List.find?_cons, hxi, hfxi, hi]
    · have hxj : (x.id == j) = false := by simp [hx]
      simp only [updateFirstBy, hxj, Bool.false_eq_true, if_false]
      by_cases hxi : x.id = i
      · have hne : ¬ i = j := fun h => hx (h ▸ hxi)
        simp [findById, List.find?_cons, hxi, hne]
      · have hxi' : (x.id == i) = false := by simp [hxi]
        simpa [findById, List.find?_cons, hxi'] using ih

theorem mem_updateFirstBy {p : α → Bool} {f : α → α} {l : List α} {y : α}
    (h : y ∈ updateFirstBy p f l) :
    y ∈ l ∨ ∃ x, x ∈ l ∧ p x = true ∧ y = f x := by
  induction l with
  | nil => simp [updateFirstBy] at h
  | cons x xs ih =>
    by_cases hx : p x = true
    · simp only [updateFirstBy, hx, if_true] at h
      rcases List.mem_cons.mp h with h1 | h1
      · exact Or.inr ⟨x, List.mem_cons_self x xs, hx, h1⟩
      · exact Or.inl (List.mem_cons_of_mem x h1)
    · simp only [updateFirstBy, hx, if_false] at h
      rcases List.mem_cons.mp h with h1 | h1
      · exact Or.inl (h1 ▸ List.mem_cons_self x xs)
      · rcases ih h1 with h2 | ⟨z, hz, hpz, hyz⟩
        · exact Or.inl (List.mem_cons_of_mem x h2)
        · exact Or.inr ⟨z, List.mem_cons_of_mem x hz, hpz, hyz⟩

/-- One `use` call can only keep or lower the quantity of any item, and never
makes an item disappear. -/
theorem usePantryItem_quantity_step (st : DBState) (userId : OID)
    (req : UsePantryItemRequest) (now : Int) (i : OID) (q : Qty)
    (hq : quantityOf st i = some q) :
    ∃ q1, quantityOf (usePantryItem st userId req now).1 i = some q1 ∧ q1 ≤ q := by
  unfold usePantryItem
  by_cases h0 : req.quantity ≤ 0
  · exact ⟨q, by simp [h0, hq], le_refl q⟩
  · simp only [h0, if_false]
    cases hu : st.users.find? (fun u => u.id == userId) with
    | none => exact ⟨q, hq, le_refl q⟩
    | some user =>
      cases hit : findById st.items req.itemId with
      | none => exact ⟨q, hq, le_refl q⟩
      | some item =>
        by_cases hg : (item.groupId != user.groupId) = true
        · exact ⟨q, by simp [hg, hq], le_refl q⟩
        · by_cases hlt : item.quantity < req.quantity
          · exact ⟨q, by simp [hg, hlt, hq], le_refl q⟩
          · simp only [hg, hlt, if_false, Bool.false_eq_true]
            have hfind := findById_updateFirstBy st.items req.itemId i
              (useItemTransform (item.quantity - req.quantity) now) (fun x _ => rfl)
            have hfind2 := findById_updateFirstBy st.items req.itemId req.itemId
              (useItemTransform (item.quantity - req.quantity) now) (fun x _ => rfl)
            cases hpost : findById (updateFirstBy (fun it => it.id == req.itemId)
                (useItemTransform (item.quantity - req.quantity) now) st.items)
                req.itemId with
            | none => rw [hfind2] at hpost; simp [hit] at hpost
            | some after =>
              simp only [quantityOf]
              by_cases hij : i = req.itemId
              · subst hij
                rw [hfind] at hpost ⊢
                simp only [if_pos rfl] at hpost ⊢
                simp only [hit, Option.map_some] at hpost ⊢
                refine ⟨item.quantity - req.quantity, by simp [useItemTransform], ?_⟩
                have hqi : q = item.quantity := by
                  simp [quantityOf, hit] at hq; exact hq.symm
                have hpos : 0 < req.quantity := lt_of_not_le h0
                rw [hqi]
                linarith
              · rw [hfind, if_neg hij]
                simp only [quantityOf] at hq
                cases hi : findById st.items i with
                | none => simp [hi] at hq
                | some it0 =>
                  simp [hi] at hq
                  exact ⟨q, by simp [hq], le_refl q⟩

/-- One `use` call preserves non-negativity of all quantities. -/
theorem usePantryItem_nonneg_step (st : DBState) (userId : OID)
    (req : UsePantryItemRequest) (now : Int)
    (h : ∀ it ∈ st.items, 0 ≤ it.quantity) :
    ∀ it ∈ (usePantryItem st userId req now).1.items, 0 ≤ it.quantity := by
  unfold usePantryItem
  by_cases h0 : req.quantity ≤ 0
  · simpa [h0] using h
  · simp only [h0, if_false]
    cases hu : st.users.find? (fun u => u.id == userId) with
    | none => exact h
    | some user =>
      cases hit : findById st.items req.itemId with
      | none => exact h
      | some item =>
        by_cases hg : (item.groupId != user.groupId) = true
        · simpa [hg] using h
        · by_cases hlt : item.quantity < req.quantity
          · simpa [hg, hlt] using h
          · simp only [hg, hlt, if_false, Bool.false_eq_true]
            intro it hmem
            have hmem' : it ∈ updateFirstBy (fun x => x.id == req.itemId)
                (useItemTransform (item.quantity - req.quantity) now) st.items := by
              revert hmem
              cases hafter : findById (updateFirstBy (fun x => x.id == req.itemId)
                  (useItemTransform (item.quantity - req.quantity) now) st.items)
                  req.itemId <;>
                intro hmem <;> simpa using hmem
            rcases mem_updateFirstBy hmem' with hin | ⟨x, hx, _, hfx⟩
            · exact h it hin
            · have hq : it.quantity = item.quantity - req.quantity := by
                rw [hfx]; rfl
              rw [hq]
              have := not_lt.mp hlt
              linarith

theorem useMany_cons (st : DBState) (c : OID × UsePantryItemRequest × Int)
    (cs : List (OID × UsePantryItemRequest × Int)) :
    useMany st (c :: cs) = useMany (usePantryItem st c.1 c.2.1 c.2.2).1 cs := rfl

/-! ### Concrete sample stores, used to evaluate the handlers at explicit
inputs -/

def userW : User := { id := 10, name := "u", groupId := 1 }

def catW : PantryCategory :=
  { id := 20, name := "c", ctype := .custom, groupId := some 1,
    createdBy := some 10, isActive := true }

def itemW : PantryItem :=
  { id := 100, groupId := 1, name := "milk", quantity := 1, unit := "L",
    categoryId := 20, expirationDate := 0, addedBy := 10, createdAt := 0,
    updatedAt := 0 }

def stW : DBState :=
  { groups := [{ id := 1, name := "g" }], users := [userW], categories := [catW],
    items := [itemW], notifications := [], history := [] }

/-! ### C1 -/

/-- C1: a `use` whose requested quantity exceeds the item's current stock
fails with the insufficient-quantity error and leaves the whole store
unchanged; across any sequence of `use` calls an item's quantity is
monotonically non-increasing; and non-negativity of all quantities is
preserved by any sequence of `use` calls. -/
theorem usePantryItem_quantity_invariants :
    (∀ (st : DBState) (userId : OID) (req : UsePantryItemRequest) (now : Int)
        (user : User) (item : PantryItem),
      st.users.find? (fun u => u.id == userId) = some user →
      findById st.items req.itemId = some item →
      item.groupId = user.groupId →
      0 ≤ item.quantity →
      item.quantity < req.quantity →
      usePantryItem st userId req now = (st, .error .insufficientQuantity))
    ∧ (∀ (st : DBState) (calls : List (OID × UsePantryItemRequest × Int))
        (i : OID) (q q' : Qty),
      quantityOf st i = some q →
      quantityOf (useMany st calls) i = some q' →
      q' ≤ q)
    ∧ (∀ (st : DBState) (calls : List (OID × UsePantryItemRequest × Int)),
      (∀ it ∈ st.items, 0 ≤ it.quantity) →
      ∀ it ∈ (useMany st calls).items, 0 ≤ it.quantity) := by
  refine ⟨?_, ?_, ?_⟩
  · intro st userId req now user item hu hit hgrp hnn hlt
    unfold usePantryItem
    have h0 : ¬ req.quantity ≤ 0 := not_le.mpr (lt_of_le_of_lt hnn hlt)
    rw [if_neg h0, hu, hit]
    have hg : (item.groupId != user.groupId) = false := by simp [hgrp]
    simp [hg, hlt]
  · intro st calls
    induction calls generalizing st with
    | nil =>
      intro i q q' hq hq'
      simp only [useMany, List.foldl_nil] at hq'
      rw [hq] at hq'
      exact (Option.some.inj hq').ge
    | cons c cs ih =>
      intro i q q' hq hq'
      rw [useMany_cons] at hq'
      obtain ⟨q1, hq1, hle⟩ :=
        usePantryItem_quantity_step st c.1 c.2.1 c.2.2 i q hq
      exact le_trans (ih _ i q1 q' hq1 hq') hle
  · intro st calls
    induction calls generalizing st with
    | nil => intro h; simpa [useMany] using h
    | cons c cs ih =>
      intro h
      rw [useMany_cons]
      exact ih _ (usePantryItem_nonneg_step st c.1 c.2.1 c.2.2 h)

/-- C1 witness: at the concrete store `stW` (item `100` holds quantity `1`),
requesting `2` fails with the insufficient-quantity error and changes
nothing, and after one `use` of `1` the remaining quantity `0` is bounded by
the starting quantity `1`. -/
theorem usePantryItem_quantity_invariants_witness :
    usePantryItem stW 10 { itemId := 100, quantity := 2 } 0 =
      (stW, .error .insufficientQuantity) ∧ (0 : Qty) ≤ 1 :=
  ⟨usePantryItem_quantity_invariants.1 stW 10 { itemId := 100, quantity := 2 } 0
      userW itemW rfl rfl rfl (by decide) (by decide),
    usePantryItem_quantity_invariants.2.1 stW
      [(10, { itemId := 100, quantity := 1 }, 0)] 100 1 0 (by rfl) (by decide)⟩

/-! ### More helper lemmas -/

theorem length_updateFirstBy (p : α → Bool) (f : α → α) (l : List α) :
    (updateFirstBy p f l).length = l.length := by
  induction l with
  | nil => rfl
  | cons x xs ih =>
    by_cases hx : p x = true
    · simp [updateFirstBy, hx]
    · simp [updateFirstBy, hx, ih]

theorem find?_eq_some_decomp {p : α → Bool} {l : List α} {a : α}
    (h : l.find? p = some a) :
    ∃ l1 l2, l = l1 ++ a :: l2 ∧ (∀ x ∈ l1, p x = false) ∧ p a = true := by
  induction l with
  | nil => simp at h
  | cons x xs ih =>
    by_cases hx : p x = true
    · rw [List.find?_cons_of_pos _ hx] at h
      exact ⟨[], xs, by simp [Option.some.inj h], by simp, (Option.some.inj h) ▸ hx⟩
    · rw [List.find?_cons_of_neg _ (by simpa using hx)] at h
      obtain ⟨l1, l2, hl, hfl, hpa⟩ := ih h
      exact ⟨x :: l1, l2, by simp [hl], by
        intro y hy
        rcases List.mem_cons.mp hy with h1 | h1
        · subst h1; simpa using hx
        · exact hfl y h1, hpa⟩

theorem updateFirstBy_append_middle {p : α → Bool} (f : α → α)
    (l1 l2 : List α) (a : α) (hl1 : ∀ x ∈ l1, p x = false) (ha : p a = true) :
    updateFirstBy p f (l1 ++ a :: l2) = l1 ++ f a :: l2 := by
  induction l1 with
  | nil => simp [updateFirstBy, ha]
  | cons x xs ih =>
    have hx : p x = false := hl1 x (List.mem_cons_self x xs)
    simp only [List.cons_append, updateFirstBy, hx, Bool.false_eq_true, if_false]
    rw [List.append_eq, ih (fun y hy => hl1 y (List.mem_cons_of_mem x hy))]

/-! ### C10 -/

/-- C10: the add lookup treats the trimmed request name as an unescaped
case-insensitive regular expression anchored with `^` and `$`, so its match
predicate differs from case-insensitive trimmed string equality: the request
name `a.` matches a stored item named `ax` (not equal to it), while the
request name `a+` fails to match a stored item named exactly `a+`. -/
theorem addLookup_regex_differs_from_equality :
    (nameLookupMatches "a." "ax" = true ∧ nameEqCI "a." "ax" = false) ∧
    (nameLookupMatches "a+" "a+" = false ∧ nameEqCI "a+" "a+" = true) ∧
    addLookup 1 { name := "a.", quantity := 7, unit := "x", categoryId := 20,
                  expirationDate := 0, groupName := "g" }
      { id := 100, groupId := 1, name := "ax", quantity := 5, unit := "x",
        categoryId := 20, expirationDate := 0, addedBy := 10, createdAt := 0,
        updatedAt := 0 } = true := by
  decide

/-! ### C7 -/

/-- C7: every successful `use` call appends exactly one history entry, of
action `use`, whose quantity delta is the negative of the consumed amount. -/
theorem usePantryItem_history_use_entry :
    ∀ (st : DBState) (userId : OID) (req : UsePantryItemRequest) (now : Int)
      (user : User) (item : PantryItem),
      st.users.find? (fun u => u.id == userId) = some user →
      findById st.items req.itemId = some item →
      item.groupId = user.groupId →
      0 < req.quantity →
      req.quantity ≤ item.quantity →
      (usePantryItem st userId req now).1.history =
        st.history ++
          [{ groupId := user.groupId, itemId := req.itemId, itemName := item.name,
             action := .use, quantity := -req.quantity, userId := userId,
             userName := user.name }] := by
  intro st userId req now user item hu hit hgrp hpos hle
  unfold usePantryItem
  have h0 : ¬ req.quantity ≤ 0 := not_le.mpr hpos
  rw [if_neg h0, hu, hit]
  have hg : (item.groupId != user.groupId) = false := by simp [hgrp]
  have hlt : ¬ item.quantity < req.quantity := not_lt.mpr hle
  simp only [hg, Bool.false_eq_true, if_false, hlt]
  have hfind2 := findById_updateFirstBy st.items req.itemId req.itemId
    (useItemTransform (item.quantity - req.quantity) now) (fun x _ => rfl)
  cases hpost : findById (updateFirstBy (fun it => it.id == req.itemId)
      (useItemTransform (item.quantity - req.quantity) now) st.items) req.itemId with
  | none => rw [hfind2] at hpost; simp [hit] at hpost
  | some after =>
    rw [hfind2] at hpost
    simp only [if_pos rfl, hit, Option.map_some] at hpost
    have hname : after.name = item.name := by
      rw [← Option.some.inj hpost]; rfl
    simp [historyForUse, hname]

/-- C7 witness: at `stW`, using `1` of item `100` (stock `1`) appends the one
`use` entry with delta `-1`. -/
theorem usePantryItem_history_use_entry_witness :
    (usePantryItem stW 10 { itemId := 100, quantity := 1 } 0).1.history =
      stW.history ++
        [{ groupId := userW.groupId, itemId := 100, itemName := itemW.name,
           action := .use, quantity := -1, userId := 10, userName := userW.name }] :=
  usePantryItem_history_use_entry stW 10 { itemId := 100, quantity := 1 } 0
    userW itemW rfl rfl rfl (by decide) (by decide)

/-! ### C3 -/

/-- C3 (amended): a successful `use` that lands in `(0, 1]` appends a
low-stock notification unconditionally — even when one is already active, so
duplicates accumulate; a `use` reaching exactly `0` deletes all low-stock
notifications of the item and then appends one out-of-stock notification
(without checking for existing out-of-stock ones); otherwise notifications
are unchanged. -/
theorem usePantryItem_notification_transitions :
    ∀ (st : DBState) (userId : OID) (req : UsePantryItemRequest) (now : Int)
      (user : User) (item : PantryItem),
      st.users.find? (fun u => u.id == userId) = some user →
      findById st.items req.itemId = some item →
      item.groupId = user.groupId →
      0 < req.quantity →
      req.quantity ≤ item.quantity →
      ((0 < item.quantity - req.quantity ∧ item.quantity - req.quantity ≤ 1 →
          (usePantryItem st userId req now).1.notifications =
            st.notifications ++
              [mkNotification item.groupId item.id item.name .low_stock
                lowStockMessage now])
        ∧ (item.quantity - req.quantity = 0 →
          (usePantryItem st userId req now).1.notifications =
            (st.notifications.filter (fun n =>
              !(n.itemId == item.id && n.ntype == NotificationType.low_stock))) ++
              [mkNotification item.groupId item.id item.name .out_of_stock
                outOfStockMessage now])
        ∧ (¬ (0 < item.quantity - req.quantity ∧ item.quantity - req.quantity ≤ 1) →
            item.quantity - req.quantity ≠ 0 →
          (usePantryItem st userId req now).1.notifications = st.notifications)) := by
  intro st userId req now user item hu hit hgrp hpos hle
  unfold usePantryItem
  have h0 : ¬ req.quantity ≤ 0 := not_le.mpr hpos
  rw [if_neg h0, hu, hit]
  have hg : (item.groupId != user.groupId) = false := by simp [hgrp]
  have hlt : ¬ item.quantity < req.quantity := not_lt.mpr hle
  simp only [hg, Bool.false_eq_true, if_false, hlt]
  cases hpost : findById (updateFirstBy (fun it => it.id == req.itemId)
      (useItemTransform (item.quantity - req.quantity) now) st.items) req.itemId with
  | none =>
    have hfind2 := findById_updateFirstBy st.items req.itemId req.itemId
      (useItemTransform (item.quantity - req.quantity) now) (fun x _ => rfl)
    rw [hfind2] at hpost; simp [hit] at hpost
  | some after =>
    refine ⟨?_, ?_, ?_⟩
    · intro hband
      have hne : ¬ item.quantity - req.quantity = 0 := by
        intro h; rw [h] at hband; exact absurd hband.1 (lt_irrefl 0)
      simp only [if_pos hband, if_neg hne]
    · intro hzero
      have hnband : ¬ (0 < item.quantity - req.quantity ∧
          item.quantity - req.quantity ≤ 1) := by
        intro h; rw [hzero] at h; exact absurd h.1 (lt_irrefl 0)
      simp only [if_pos hzero, if_neg hnband]
    · intro hnband hne
      simp only [if_neg hnband, if_neg hne]

/-- Item `100` with stock `2`, for exercising the low-stock band twice. -/
def itemC3 : PantryItem :=
  { id := 100, groupId := 1, name := "milk", quantity := 2, unit := "L",
    categoryId := 20, expirationDate := 0, addedBy := 10, createdAt := 0,
    updatedAt := 0 }

def stC3 : DBState :=
  { groups := [{ id := 1, name := "g" }], users := [userW], categories := [catW],
    items := [itemC3], notifications := [], history := [] }

/-- C3 counterexample: starting from stock `2`, using `1` leaves stock `1`
(one low-stock notification), and then using `1/2` — with that low-stock
notification still active — creates a second one: the claim that no
additional low-stock notification is created is false. -/
theorem usePantryItem_low_stock_duplicate_cex :
    notifCount (useMany stC3 [(10, { itemId := 100, quantity := 1 }, 0)])
        100 .low_stock = 1 ∧
    notifCount (useMany stC3 [(10, { itemId := 100, quantity := 1 }, 0),
        (10, { itemId := 100, quantity := 1/2 }, 1)]) 100 .low_stock = 2 := by
  decide

/-- C3 witness: at `stW` (stock `1`), using `1/2` lands in `(0, 1]` and the
post-state notifications are exactly the appended low-stock entry. -/
theorem usePantryItem_notification_transitions_witness :
    (usePantryItem stW 10 { itemId := 100, quantity := 1/2 } 0).1.notifications =
      stW.notifications ++
        [mkNotification itemW.groupId itemW.id itemW.name .low_stock
          lowStockMessage 0] :=
  (usePantryItem_notification_transitions stW 10 { itemId := 100, quantity := 1/2 } 0
      userW itemW rfl rfl rfl (by decide) (by decide)).1 (by decide)

/-! ### C4 -/

/-- Item `100` at stock `0`, with its active out-of-stock notification. -/
def itemC4 : PantryItem :=
  { id := 100, groupId := 1, name := "milk", quantity := 0, unit := "L",
    categoryId := 20, expirationDate := 0, addedBy := 10, createdAt := 0,
    updatedAt := 0 }

def stC4 : DBState :=
  { groups := [{ id := 1, name := "g" }], users := [userW], categories := [catW],
    items := [itemC4],
    notifications := [mkNotification 1 100 "milk" .out_of_stock outOfStockMessage 0],
    history := [] }

def reqC4 : AddPantryItemRequest :=
  { name := "milk", quantity := 10, unit := "L", categoryId := 20,
    expirationDate := 0, groupName := "g" }

/-- C4: restocking item `100` from `0` to `10` through `add` leaves its
out-of-stock notification active — the code performs no retraction when the
quantity rises above the low-stock threshold, contradicting the claim. -/
theorem addPantryItem_restock_keeps_notifications :
    quantityOf (addPantryItem stC4 10 reqC4 5 101).1 100 = some 10 ∧
    notifCount (addPantryItem stC4 10 reqC4 5 101).1 100 .out_of_stock = 1 ∧
    notifCount (updatePantryItem stC4 10 100 reqC4 5).1 100 .out_of_stock = 1 := by
  decide

/-! ### C2 -/

/-- Item `100` named literally `a+`, whose name is a regex metacharacter
sequence. -/
def itemPlus : PantryItem :=
  { id := 100, groupId := 1, name := "a+", quantity := 5, unit := "x",
    categoryId := 20, expirationDate := 0, addedBy := 10, createdAt := 0,
    updatedAt := 0 }

def stC2 : DBState :=
  { groups := [{ id := 1, name := "g" }], users := [userW], categories := [catW],
    items := [itemPlus], notifications := [], history := [] }

def reqC2 : AddPantryItemRequest :=
  { name := "a+", quantity := 7, unit := "x", categoryId := 20,
    expirationDate := 0, groupName := "g" }

/-- C2 counterexample: adding `a+` when an item named exactly `a+` exists in
the same group and category — an exact tuple match under case-insensitive
trimmed equality — inserts a second row and leaves the existing row's
quantity at `5`, instead of updating it to `7` as the claim requires. -/
theorem addPantryItem_tuple_upsert_cex :
    nameEqCI "a+" "a+" = true ∧
    (addPantryItem stC2 10 reqC2 0 101).1.items.length = 2 ∧
    quantityOf (addPantryItem stC2 10 reqC2 0 101).1 100 = some 5 := by
  decide

/-- C2 (amended): `add` decides between update and insert with its anchored
case-insensitive **regex** lookup on the trimmed request name (not tuple
equality).  When the lookup matches an existing row, that row is replaced in
place with the requested quantity (not the sum) and the post-commit history
entry is sized `newQuantity - oldQuantity` (none when the quantity is
unchanged); when the lookup matches nothing, a new row is inserted with an
`add` history entry sized as the full quantity. -/
theorem addPantryItem_upsert_regex :
    ∀ (st : DBState) (userId : OID) (req : AddPantryItemRequest) (now : Int)
      (freshId : OID) (group : Group) (user : User),
      (req.name == "" || req.quantity < 0 || req.unit == "" ||
        req.groupName == "") = false →
      st.groups.find? (fun g => g.name == req.groupName) = some group →
      st.users.find? (fun u => u.id == userId) = some user →
      user.groupId = group.id →
      (validateCategoryID st req.categoryId group.id).isSome = true →
      ((∀ item, st.items.find? (addLookup group.id req) = some item →
          ∃ pre post r,
            st.items = pre ++ item :: post ∧
            (addPantryItem st userId req now freshId).1.items = pre ++ r :: post ∧
            r.id = item.id ∧ r.name = item.name ∧ r.quantity = req.quantity ∧
            (item.quantity ≠ req.quantity →
              (addPantryItem st userId req now freshId).1.history =
                st.history ++
                  [{ groupId := group.id, itemId := item.id, itemName := item.name,
                     action := .add, quantity := req.quantity - item.quantity,
                     userId := userId, userName := user.name }]) ∧
            (item.quantity = req.quantity →
              (addPantryItem st userId req now freshId).1.history = st.history))
        ∧ (st.items.find? (addLookup group.id req) = none →
            ∃ n, (addPantryItem st userId req now freshId).1.items =
                st.items ++ [n] ∧
              n.id = freshId ∧ n.name = req.name ∧ n.quantity = req.quantity ∧
              (addPantryItem st userId req now freshId).1.history =
                st.history ++
                  [{ groupId := group.id, itemId := freshId, itemName := req.name,
                     action := .add, quantity := req.quantity, userId := userId,
                     userName := user.name }])) := by
  intro st userId req now freshId group user hval hgf huf hmem hcat
  obtain ⟨cat, hcat'⟩ := Option.isSome_iff_exists.mp hcat
  have hg : (user.groupId != group.id) = false := by simp [hmem]
  constructor
  · intro item hfind
    obtain ⟨pre, post, hsplit, hpre, hpa⟩ := find?_eq_some_decomp hfind
    unfold addPantryItem
    rw [hval, hgf, huf]
    dsimp only
    simp only [Bool.false_eq_true, if_false, hg]
    rw [hcat', hfind]
    dsimp only
    refine ⟨pre, post,
      { item with
        quantity := req.quantity
        unit := req.unit
        expirationDate :=
          if req.expirationDate ≠ 0 then req.expirationDate else item.expirationDate
        updatedAt := now }, hsplit, ?_, rfl, rfl, rfl, ?_, ?_⟩
    · rw [hsplit, updateFirstBy_append_middle _ pre post item hpre hpa]
    · intro hne
      simp only [if_pos hne, historyForAdd]
    · intro heq
      have hne : ¬ item.quantity ≠ req.quantity := by simp [heq]
      simp only [if_neg hne]
  · intro hnone
    unfold addPantryItem
    rw [hval, hgf, huf]
    dsimp only
    simp only [Bool.false_eq_true, if_false, hg]
    rw [hcat', hnone]
    dsimp only
    exact ⟨_, rfl, rfl, rfl, rfl, rfl⟩

def itemEggs : PantryItem :=
  { id := 100, groupId := 1, name := "Eggs", quantity := 12, unit := "count",
    categoryId := 20, expirationDate := 0, addedBy := 10, createdAt := 0,
    updatedAt := 0 }

def stEggs : DBState :=
  { groups := [{ id := 1, name := "g" }], users := [userW], categories := [catW],
    items := [itemEggs], notifications := [], history := [] }

def reqEggs : AddPantryItemRequest :=
  { name := "eggs", quantity := 6, unit := "count", categoryId := 20,
    expirationDate := 0, groupName := "g" }

/-- C2 witness: adding `eggs` (quantity `6`) over the existing `Eggs`
(quantity `12`) updates that row in place to quantity `6` with one history
entry sized `-6`. -/
theorem addPantryItem_upsert_regex_witness :
    ∃ pre post r,
      stEggs.items = pre ++ itemEggs :: post ∧
      (addPantryItem stEggs 10 reqEggs 0 101).1.items = pre ++ r :: post ∧
      r.id = itemEggs.id ∧ r.name = itemEggs.name ∧ r.quantity = reqEggs.quantity ∧
      (itemEggs.quantity ≠ reqEggs.quantity →
        (addPantryItem stEggs 10 reqEggs 0 101).1.history =
          stEggs.history ++
            [{ groupId := 1, itemId := itemEggs.id, itemName := itemEggs.name,
               action := .add, quantity := reqEggs.quantity - itemEggs.quantity,
               userId := 10, userName := userW.name }]) ∧
      (itemEggs.quantity = reqEggs.quantity →
        (addPantryItem stEggs 10 reqEggs 0 101).1.history = stEggs.history) :=
  (addPantryItem_upsert_regex stEggs 10 reqEggs 0 101 { id := 1, name := "g" }
      userW (by decide) rfl rfl rfl (by decide)).1 itemEggs (by decide)

/-! ### C6 -/

/-- C6 (amended): an `add` or `update` whose request carries a non-zero
expiration inside the 3-day expiring-soon window appends an expiring-soon
notification **unconditionally** — there is no existence check, so repeating
such a mutation accumulates duplicates. -/
theorem mutation_expiring_soon_insert :
    (∀ (st : DBState) (userId : OID) (req : AddPantryItemRequest) (now : Int)
        (freshId : OID) (group : Group) (user : User),
      (req.name == "" || req.quantity < 0 || req.unit == "" ||
        req.groupName == "") = false →
      st.groups.find? (fun g => g.name == req.groupName) = some group →
      st.users.find? (fun u => u.id == userId) = some user →
      user.groupId = group.id →
      (validateCategoryID st req.categoryId group.id).isSome = true →
      req.expirationDate ≠ 0 →
      isExpiringSoon now req.expirationDate 3 = true →
      ∃ n, (addPantryItem st userId req now freshId).1.notifications =
            st.notifications ++ [n] ∧ n.ntype = .expiring_soon)
    ∧ (∀ (st : DBState) (userId itemId : OID) (req : AddPantryItemRequest)
        (now : Int) (group : Group) (user : User) (item : PantryItem),
      (req.name == "" || req.quantity < 0 || req.unit == "" ||
        req.groupName == "") = false →
      st.groups.find? (fun g => g.name == req.groupName) = some group →
      st.users.find? (fun u => u.id == userId) = some user →
      user.groupId = group.id →
      (validateCategoryID st req.categoryId group.id).isSome = true →
      findById st.items itemId = some item →
      item.groupId = user.groupId →
      req.expirationDate ≠ 0 →
      isExpiringSoon now req.expirationDate 3 = true →
      ∃ n, (updatePantryItem st userId itemId req now).1.notifications =
            st.notifications ++ [n] ∧ n.ntype = .expiring_soon) := by
  constructor
  · intro st userId req now freshId group user hval hgf huf hmem hcat hexp hsoon
    obtain ⟨cat, hcat'⟩ := Option.isSome_iff_exists.mp hcat
    have hg : (user.groupId != group.id) = false := by simp [hmem]
    unfold addPantryItem
    rw [hval, hgf, huf]
    dsimp only
    simp only [Bool.false_eq_true, if_false, hg]
    rw [hcat']
    dsimp only
    cases hfind : st.items.find? (addLookup group.id req) with
    | some item =>
      dsimp only
      rw [if_pos hexp]
      have hguard : req.expirationDate ≠ 0 ∧
          isExpiringSoon now req.expirationDate 3 = true := ⟨hexp, hsoon⟩
      rw [if_pos hguard]
      exact ⟨_, rfl, rfl⟩
    | none =>
      dsimp only [CreatePantryItem]
      have hguard : req.expirationDate ≠ 0 ∧
          isExpiringSoon now req.expirationDate 3 = true := ⟨hexp, hsoon⟩
      rw [if_pos hguard]
      exact ⟨_, rfl, rfl⟩
  · intro st userId itemId req now group user item hval hgf huf hmem hcat hit
      hgrp hexp hsoon
    obtain ⟨cat, hcat'⟩ := Option.isSome_iff_exists.mp hcat
    have hg : (user.groupId != group.id) = false := by simp [hmem]
    have hig : (item.groupId != user.groupId) = false := by simp [hgrp]
    unfold updatePantryItem
    rw [hval, hgf, huf]
    dsimp only
    simp only [Bool.false_eq_true, if_false, hg]
    rw [hcat', hit]
    dsimp only
    simp only [hig, Bool.false_eq_true, if_false]
    rw [if_pos hexp]
    have hguard : req.expirationDate ≠ 0 ∧
        isExpiringSoon now req.expirationDate 3 = true := ⟨hexp, hsoon⟩
    rw [if_pos hguard]
    exact ⟨_, rfl, rfl⟩

def stC6 : DBState :=
  { groups := [{ id := 1, name := "g" }], users := [userW], categories := [catW],
    items := [], notifications := [], history := [] }

def reqC6 : AddPantryItemRequest :=
  { name := "milk", quantity := 5, unit := "L", categoryId := 20,
    expirationDate := 2, groupName := "g" }

/-- C6 counterexample: adding the same item twice with an expiration inside
the window leaves two active expiring-soon notifications for it, refuting
"exactly one". -/
theorem addPantryItem_expiring_duplicate_cex :
    notifCount (addPantryItem stC6 10 reqC6 0 100).1 100 .expiring_soon = 1 ∧
    notifCount (addPantryItem (addPantryItem stC6 10 reqC6 0 100).1
        10 reqC6 0 101).1 100 .expiring_soon = 2 := by
  decide

/-- C6 witness: at the empty store `stC6`, one such `add` appends exactly one
expiring-soon notification. -/
theorem mutation_expiring_soon_insert_witness :
    ∃ n, (addPantryItem stC6 10 reqC6 0 100).1.notifications =
          stC6.notifications ++ [n] ∧ n.ntype = .expiring_soon :=
  mutation_expiring_soon_insert.1 stC6 10 reqC6 0 100 { id := 1, name := "g" }
    userW (by decide) rfl rfl rfl (by decide) (by decide) (by decide)

/-! ### C5 -/

/-- C5: once past the permission check, deleting a category fails with the
conflict error — leaving the store unchanged — exactly while at least one
pantry item references the category **by id**; with no referencing item the
delete removes the category, touches no item, and afterwards no item
references the deleted id (nothing is orphaned). -/
theorem deletePantryCategory_conflict_iff_referenced :
    ∀ (st : DBState) (userId categoryId : OID) (user : User)
      (category : PantryCategory),
      st.users.find? (fun u => u.id == userId) = some user →
      st.categories.find? (fun c => c.id == categoryId) = some category →
      canBeDeletedBy category userId user.groupId = true →
      ((0 < st.items.countP (fun it => it.categoryId == categoryId) →
          deletePantryCategory st userId categoryId = (st, .error .conflictInUse))
        ∧ (st.items.countP (fun it => it.categoryId == categoryId) = 0 →
          (deletePantryCategory st userId categoryId).2 = .ok () ∧
          (deletePantryCategory st userId categoryId).1.categories =
            removeFirstBy (fun c => c.id == categoryId) st.categories ∧
          (deletePantryCategory st userId categoryId).1.items = st.items ∧
          ∀ it ∈ (deletePantryCategory st userId categoryId).1.items,
            (it.categoryId == categoryId) = false)) := by
  intro st userId categoryId user category huf hcf hperm
  have hnperm : ¬¬ canBeDeletedBy category userId user.groupId = true := by
    simp [hperm]
  constructor
  · intro hcount
    unfold deletePantryCategory
    rw [huf, hcf]
    dsimp only
    rw [if_neg hnperm, if_pos hcount]
  · intro hcount
    obtain ⟨c1, c2, hcsplit, _, hcpa⟩ := find?_eq_some_decomp hcf
    have hany : st.categories.any (fun c => c.id == categoryId) = true :=
      List.any_eq_true.mpr ⟨category, by rw [hcsplit]; simp, hcpa⟩
    have hnone : ¬ 0 < st.items.countP (fun it => it.categoryId == categoryId) := by
      rw [hcount]; exact lt_irrefl 0
    unfold deletePantryCategory
    rw [huf, hcf]
    dsimp only
    rw [if_neg hnperm, if_neg hnone, if_pos hany]
    refine ⟨rfl, rfl, rfl, ?_⟩
    intro it hmem
    have := List.countP_eq_zero.mp hcount it hmem
    simpa using this

/-- C5 witness: at `stW`, item `100` references category `20` by id, so the
delete fails with the conflict error and changes nothing; after deleting that
item the same call succeeds and no item references `20` any more. -/
theorem deletePantryCategory_conflict_iff_referenced_witness :
    deletePantryCategory stW 10 20 = (stW, .error .conflictInUse) ∧
    ((deletePantryCategory { stW with items := [] } 10 20).2 = .ok () ∧
      (deletePantryCategory { stW with items := [] } 10 20).1.categories =
        removeFirstBy (fun c => c.id == 20) stW.categories ∧
      (deletePantryCategory { stW with items := [] } 10 20).1.items =
        ({ stW with items := [] } : DBState).items ∧
      ∀ it ∈ (deletePantryCategory { stW with items := [] } 10 20).1.items,
        (it.categoryId == 20) = false) :=
  ⟨(deletePantryCategory_conflict_iff_referenced stW 10 20 userW catW
      rfl rfl (by decide)).1 (by decide),
    (deletePantryCategory_conflict_iff_referenced { stW with items := [] } 10 20
      userW catW rfl rfl (by decide)).2 (by decide)⟩

/-! ### C8 -/

instance : IsTotal PantryItem itemLe := ⟨by
  intro a b
  rcases Nat.lt_trichotomy a.categoryId b.categoryId with h | h | h
  · exact Or.inl (Or.inl h)
  · rcases le_total a.name b.name with hn | hn
    · exact Or.inl (Or.inr ⟨h, hn⟩)
    · exact Or.inr (Or.inr ⟨h.symm, hn⟩)
  · exact Or.inr (Or.inl h)⟩

instance : IsTrans PantryItem itemLe := ⟨by
  intro a b c hab hbc
  rcases hab with h1 | ⟨h1, h1n⟩ <;> rcases hbc with h2 | ⟨h2, h2n⟩
  · exact Or.inl (lt_trans h1 h2)
  · exact Or.inl (h2 ▸ h1)
  · exact Or.inl (h1 ▸ h2)
  · exact Or.inr ⟨h1.trans h2, le_trans h1n h2n⟩⟩

/-- C8: the item listing is sorted by `(category_id, name)` and holds exactly
the group's items, restricted to the category filter when one is given. -/
theorem getPantryItems_sorted_and_complete :
    ∀ (st : DBState) (groupId : OID) (categoryFilter : Option OID),
      (getPantryItems st groupId categoryFilter).Sorted itemLe ∧
      (getPantryItems st groupId categoryFilter).Perm
        (st.items.filter (listItemFilter groupId categoryFilter)) ∧
      ∀ it, it ∈ getPantryItems st groupId categoryFilter ↔
        (it ∈ st.items ∧ it.groupId = groupId ∧
          ∀ c, categoryFilter = some c → it.categoryId = c) := by
  intro st groupId categoryFilter
  refine ⟨List.sorted_insertionSort _ _, List.perm_insertionSort _ _, ?_⟩
  intro it
  rw [getPantryItems, (List.perm_insertionSort _ _).mem_iff, List.mem_filter]
  cases categoryFilter with
  | none =>
    constructor
    · rintro ⟨hmem, hf⟩
      simp only [listItemFilter, Bool.and_eq_true, beq_iff_eq] at hf
      exact ⟨hmem, hf.1, by intro c hc; cases hc⟩
    · rintro ⟨hmem, hg, _⟩
      exact ⟨hmem, by simp [listItemFilter, hg]⟩
  | some c0 =>
    constructor
    · rintro ⟨hmem, hf⟩
      simp only [listItemFilter, Bool.and_eq_true, beq_iff_eq] at hf
      exact ⟨hmem, hf.1, by intro c hc; injection hc with h; exact h ▸ hf.2⟩
    · rintro ⟨hmem, hg, hcat⟩
      exact ⟨hmem, by simp [listItemFilter, hg, hcat c0 rfl]⟩

/-! ### C9 -/

/-- After an `update` call the stored expiration of the target item is either
untouched (error paths, or a request with the zero sentinel) or replaced by
the request's non-zero expiration. -/
theorem updatePantryItem_exp_shape (st : DBState) (userId itemId : OID)
    (req : AddPantryItemRequest) (now : Int) (item : PantryItem)
    (hit : findById st.items itemId = some item) :
    expirationOf (updatePantryItem st userId itemId req now).1 itemId =
      some item.expirationDate ∨
    (req.expirationDate ≠ 0 ∧
      expirationOf (updatePantryItem st userId itemId req now).1 itemId =
        some req.expirationDate) := by
  have hbase : expirationOf st itemId = some item.expirationDate := by
    simp [expirationOf, hit]
  have hid : item.id = itemId := by
    obtain ⟨_, _, _, _, hpa⟩ := find?_eq_some_decomp hit
    simpa using hpa
  unfold updatePantryItem
  split
  · exact Or.inl hbase
  · split
    · exact Or.inl hbase
    · split
      · exact Or.inl hbase
      · split
        · exact Or.inl hbase
        · split
          · exact Or.inl hbase
          · split
            · next hx => rw [hit] at hx; cases hx
            · next x hx =>
              rw [hit] at hx
              cases Option.some.inj hx
              split
              · exact Or.inl hbase
              · have hfind := findById_updateFirstBy st.items itemId itemId
                  (fun _ =>
                    { item with
                      name := req.name
                      quantity := req.quantity
                      unit := req.unit
                      categoryId := req.categoryId
                      expirationDate :=
                        if req.expirationDate ≠ 0 then req.expirationDate
                        else item.expirationDate
                      updatedAt := now })
                  (fun y hy => by simp [hid, hy])
                dsimp only [expirationOf]
                rw [hfind, if_pos rfl, hit]
                by_cases hre : req.expirationDate ≠ 0
                · exact Or.inr ⟨hre, by simp [if_pos hre]⟩
                · exact Or.inl (by simp [if_neg hre])

/-- C9: when the request supplies no expiration date (the zero sentinel),
`update` — and an `add` that matched an existing row — leave the stored
expiration date unchanged; and a non-zero stored expiration can never become
zero again through these mutations, whatever the request. -/
theorem expiration_never_cleared :
    (∀ (st : DBState) (userId itemId : OID) (req : AddPantryItemRequest)
        (now : Int) (item : PantryItem),
      findById st.items itemId = some item →
      ((req.expirationDate = 0 →
          expirationOf (updatePantryItem st userId itemId req now).1 itemId =
            some item.expirationDate)
        ∧ (item.expirationDate ≠ 0 →
          ∀ e, expirationOf (updatePantryItem st userId itemId req now).1 itemId =
            some e → e ≠ 0)))
    ∧ (∀ (st : DBState) (userId : OID) (req : AddPantryItemRequest) (now : Int)
        (freshId : OID) (group : Group) (item : PantryItem),
      st.groups.find? (fun g => g.name == req.groupName) = some group →
      st.items.find? (addLookup group.id req) = some item →
      ∃ pre post r,
        st.items = pre ++ item :: post ∧
        (addPantryItem st userId req now freshId).1.items = pre ++ r :: post ∧
        (req.expirationDate = 0 → r.expirationDate = item.expirationDate) ∧
        (item.expirationDate ≠ 0 → r.expirationDate ≠ 0)) := by
  constructor
  · intro st userId itemId req now item hit
    have hupd := updatePantryItem_exp_shape st userId itemId req now item hit
    constructor
    · intro hz
      rcases hupd with h | ⟨hne, _⟩
      · exact h
      · exact absurd hz hne
    · intro hnz e he
      rcases hupd with h | ⟨hne, h⟩
      · rw [h] at he
        exact (Option.some.inj he) ▸ hnz
      · rw [h] at he
        exact (Option.some.inj he) ▸ hne
  · intro st userId req now freshId group item hgf hfind
    obtain ⟨pre, post, hsplit, hpre, hpa⟩ := find?_eq_some_decomp hfind
    unfold addPantryItem
    split
    · exact ⟨pre, post, item, hsplit, hsplit, fun _ => rfl, fun h => h⟩
    · split
      · exact ⟨pre, post, item, hsplit, hsplit, fun _ => rfl, fun h => h⟩
      · next g hg =>
        rw [hgf] at hg
        cases Option.some.inj hg
        split
        · exact ⟨pre, post, item, hsplit, hsplit, fun _ => rfl, fun h => h⟩
        · split
          · exact ⟨pre, post, item, hsplit, hsplit, fun _ => rfl, fun h => h⟩
          · split
            · exact ⟨pre, post, item, hsplit, hsplit, fun _ => rfl, fun h => h⟩
            · split
              · next x hx =>
                rw [hfind] at hx
                cases Option.some.inj hx
                refine ⟨pre, post,
                  { item with
                    quantity := req.quantity
                    unit := req.unit
                    expirationDate :=
                      if req.expirationDate ≠ 0 then req.expirationDate
                      else item.expirationDate
                    updatedAt := now }, hsplit, ?_, ?_, ?_⟩
                · dsimp only
                  rw [hsplit, updateFirstBy_append_middle _ pre post item hpre hpa]
                · intro hz
                  simp [hz]
                · intro hnz
                  by_cases hre : req.expirationDate ≠ 0
                  · simpa [if_pos hre] using hre
                  · simpa [if_neg hre] using hnz
              · next hx =>
                rw [hfind] at hx
                cases hx

/-- Item `100` with a stored expiration of `5`. -/
def itemExp : PantryItem :=
  { id := 100, groupId := 1, name := "milk", quantity := 1, unit := "L",
    categoryId := 20, expirationDate := 5, addedBy := 10, createdAt := 0,
    updatedAt := 0 }

def stExp : DBState :=
  { groups := [{ id := 1, name := "g" }], users := [userW], categories := [catW],
    items := [itemExp], notifications := [], history := [] }

/-- A request carrying no expiration date (the zero sentinel). -/
def reqNoExp : AddPantryItemRequest :=
  { name := "milk", quantity := 3, unit := "L", categoryId := 20,
    expirationDate := 0, groupName := "g" }

/-- C9 witness: updating item `100` (stored expiration `5`) with a request
that carries no expiration leaves the stored expiration at `5`, and no update
outcome can return it to the zero sentinel. -/
theorem expiration_never_cleared_witness :
    (reqNoExp.expirationDate = 0 →
      expirationOf (updatePantryItem stExp 10 100 reqNoExp 7).1 100 =
        some itemExp.expirationDate) ∧
    (itemExp.expirationDate ≠ 0 →
      ∀ e, expirationOf (updatePantryItem stExp 10 100 reqNoExp 7).1 100 =
        some e → e ≠ 0) :=
  expiration_never_cleared.1 stExp 10 100 reqNoExp 7 itemExp rfl

end Cribb
